import Mathlib

/-!
A shallow embedding of the write-only-secret reconciliation engine of the
`terraform-provider-semaphore` repository
(`internal/provider/project_environment_resource.go`), together with proofs
about its diff engine, response merger, map normalizer and composite
identifier parser.

Terraform framework attribute values (`types.String`, `types.Int64`,
`types.List`) are modelled as explicit tri-state inductives (null, unknown,
known value); Go pointers to maps become `Option`; Go `map[string]string`
becomes an association list with unique keys; Go struct zero values become
explicit defaults (0, ""); a Go run-time panic (nil-pointer dereference)
is modelled as the `none` branch of an `Option` result.
-/

/-- Tri-state terraform framework string value, modelling `types.String`. -/
inductive TfString where
  | null
  | unknown
  | value (s : String)
deriving DecidableEq

/-- Tri-state terraform framework 64-bit integer value, modelling `types.Int64`. -/
inductive TfInt where
  | null
  | unknown
  | value (n : Int)
deriving DecidableEq

/-- Model of `types.String.ValueString`: the known value, or "" for null/unknown. -/
def TfString.valueString : TfString → String
  | .value s => s
  | _ => ""

/-- Model of `types.Int64.ValueInt64`: the known value, or 0 for null/unknown. -/
def TfInt.valueInt64 : TfInt → Int
  | .value n => n
  | _ => 0

def TfInt.isNull : TfInt → Bool
  | .null => true
  | _ => false

def TfInt.isUnknown : TfInt → Bool
  | .unknown => true
  | _ => false

/-- Model of the `ProjectEnvironmentSecretModel` terraform object
(fields `id`, `type`, `name`, `value`). The Go field `Type` is spelled
`Type'` because `Type` is reserved in Lean. -/
structure ProjectEnvironmentSecretModel where
  ID : TfInt
  Type' : TfString
  Name : TfString
  Value : TfString
deriving DecidableEq

/-- Tri-state terraform list of secret objects, modelling the
`types.List` held in `ProjectEnvironmentModel.Secrets`. -/
inductive TfSecrets where
  | null
  | unknown
  | value (elems : List ProjectEnvironmentSecretModel)
deriving DecidableEq

/-- Go `map[string]string` as an association list with unique keys. -/
abbrev GoStrMap := List (String × String)

/-- Model of `ProjectEnvironmentModel`. `Variables`/`Environment` are Go
`*map[string]string` pointers, modelled as `Option GoStrMap`. -/
structure ProjectEnvironmentModel where
  ID : TfInt
  ProjectID : TfInt
  Name : TfString
  Variables : Option GoStrMap
  Environment : Option GoStrMap
  Secrets : TfSecrets
deriving DecidableEq

/-- The Go zero value `ProjectEnvironmentModel` used as the previous
state on Create and Import (framework values are null, pointers nil). -/
def emptyProjectEnvironmentModel : ProjectEnvironmentModel :=
  { ID := .null, ProjectID := .null, Name := .null,
    Variables := none, Environment := none, Secrets := .null }

/-- Model of the wire struct `models.EnvironmentSecretRequest`
(fields `ID`, `Name`, `Type`, `Secret`, `Operation`; Go zero values are
0 and ""). -/
structure EnvironmentSecretRequest where
  ID : Int
  Name : String
  Type' : String
  Secret : String
  Operation : String
deriving DecidableEq

/-- Model of the wire struct `models.EnvironmentRequest`. -/
structure EnvironmentRequest where
  ID : Int
  ProjectID : Int
  Name : String
  JSON : String
  Env : String
  Secrets : List EnvironmentSecretRequest
deriving DecidableEq

/-- Model of the server response struct `models.EnvironmentSecret`
(`id`, `name`, `type`; the value is never returned by the server). -/
structure EnvironmentSecret where
  ID : Int
  Name : String
  Type' : String
deriving DecidableEq

/-- Model of the server response struct `models.Environment`. -/
structure Environment where
  ID : Int
  ProjectID : Int
  Name : String
  JSON : String
  Env : String
  Secrets : List EnvironmentSecret
deriving DecidableEq

/-- The scan loop inside `ProjectEnvironmentModel.SecretValue`: first element
whose `Name` and `Type` equal the given known string values, else `types.StringValue("")`. -/
def lookupSecretValue (name varType : String) : List ProjectEnvironmentSecretModel → TfString
  | [] => .value ""
  | s :: rest =>
    if s.Name = TfString.value name ∧ s.Type' = TfString.value varType then s.Value
    else lookupSecretValue name varType rest

/-- Model of `(model ProjectEnvironmentModel) SecretValue(ctx, name, varType)`:
returns `types.StringValue("")` when the secrets list is null or unknown,
else the value of the first secret matching on name and type. -/
def ProjectEnvironmentModel.SecretValue (model : ProjectEnvironmentModel)
    (name varType : String) : TfString :=
  match model.Secrets with
  | .value secrets => lookupSecretValue name varType secrets
  | _ => .value ""

/-- The scan loop inside `ProjectEnvironmentModel.Secret`: first element whose
tri-state `ID` equals the given tri-state id (`types.Int64.Equal`). -/
def lookupSecret (id : TfInt) : List ProjectEnvironmentSecretModel → Option ProjectEnvironmentSecretModel
  | [] => none
  | s :: rest => if s.ID = id then some s else lookupSecret id rest

/-- Model of `(model ProjectEnvironmentModel) Secret(ctx, id)`: nil when
the secrets list is null or unknown, else the first secret whose `ID`
equals `id`. -/
def ProjectEnvironmentModel.Secret (model : ProjectEnvironmentModel)
    (id : TfInt) : Option ProjectEnvironmentSecretModel :=
  match model.Secrets with
  | .value secrets => lookupSecret id secrets
  | _ => none

/-- JSON string escaping used by the `json.Marshal` model. -/
def escapeJsonChar (c : Char) : String :=
  if c = '"' then "\\\""
  else if c = '\\' then "\\\\"
  else if c = '\n' then "\\n"
  else if c = '\r' then "\\r"
  else if c = '\t' then "\\t"
  else c.toString

def jsonQuote (s : String) : String :=
  "\"" ++ String.join (s.data.map escapeJsonChar) ++ "\""

/-- Key-ordered insertion used to model the sorted-key iteration of
`json.Marshal` over a Go map. -/
def insertPairByKey (p : String × String) : GoStrMap → GoStrMap
  | [] => [p]
  | q :: qs => if p.1 ≤ q.1 then p :: q :: qs else q :: insertPairByKey p qs

def sortPairsByKey : GoStrMap → GoStrMap
  | [] => []
  | p :: ps => insertPairByKey p (sortPairsByKey ps)

/-- Model of `json.Marshal` on a Go `map[string]string` (keys are emitted
in sorted order; marshalling such a map never fails). -/
def marshalStrMap (m : GoStrMap) : String :=
  "\x7b" ++
    String.intercalate ","
      ((sortPairsByKey m).map (fun p => jsonQuote p.1 ++ ":" ++ jsonQuote p.2)) ++
  "\x7d"

/-- One iteration of the desired-secrets loop of
`convertProjectEnvironmentModelToEnvironmentRequest` (source lines 128-158):
the wire secret request appended for one desired secret entry. -/
def diffSecret (prev : ProjectEnvironmentModel)
    (secret : ProjectEnvironmentSecretModel) : EnvironmentSecretRequest :=
  let modelSecret : EnvironmentSecretRequest :=
    { ID := 0, Name := secret.Name.valueString, Type' := secret.Type'.valueString,
      Secret := "", Operation := "" }
  if secret.ID.isUnknown || secret.ID.isNull then
    -- Create all secrets from env missing an ID
    { modelSecret with Operation := "create", Secret := secret.Value.valueString }
  else
    let modelSecret := { modelSecret with ID := secret.ID.valueInt64 }
    -- Find the previous secret
    match prev.Secret secret.ID with
    | some prevSecret =>
      -- Update if any field has changed
      if ¬ secret.Name = prevSecret.Name ∨ ¬ secret.Value = prevSecret.Value
          ∨ ¬ secret.Type' = prevSecret.Type' then
        let modelSecret := { modelSecret with Operation := "update" }
        let modelSecret :=
          if ¬ secret.Name = prevSecret.Name then
            { modelSecret with Name := secret.Name.valueString }
          else modelSecret
        let modelSecret :=
          if ¬ secret.Value = prevSecret.Value then
            { modelSecret with Secret := secret.Value.valueString }
          else modelSecret
        if ¬ secret.Type' = prevSecret.Type' then
          { modelSecret with Type' := secret.Type'.valueString }
        else modelSecret
      else modelSecret
    | none => modelSecret

/-- One iteration of the previous-secrets loop of
`convertProjectEnvironmentModelToEnvironmentRequest` (source lines 160-171):
a delete request for a previous secret whose ID is missing from the desired
model, else nothing. The delete carries only the ID, the Type (the server
rejects deletes without it) and the operation. -/
def deleteStep (env : ProjectEnvironmentModel)
    (prevSecret : ProjectEnvironmentSecretModel) : Option EnvironmentSecretRequest :=
  match env.Secret prevSecret.ID with
  | some _ => none
  | none =>
    some { ID := prevSecret.ID.valueInt64, Name := "",
           Type' := prevSecret.Type'.valueString, Secret := "", Operation := "delete" }

/-- Model of `convertProjectEnvironmentModelToEnvironmentRequest`: the diff
engine translating a desired model plus the previous model into one wire
request. -/
def convertProjectEnvironmentModelToEnvironmentRequest
    (env prev : ProjectEnvironmentModel) : EnvironmentRequest :=
  let envSecrets : List ProjectEnvironmentSecretModel :=
    match env.Secrets with
    | .value l => l
    | _ => []
  let prevSecrets : List ProjectEnvironmentSecretModel :=
    match prev.Secrets with
    | .value l => l
    | _ => []
  { ID := if !env.ID.isNull && !env.ID.isUnknown then env.ID.valueInt64 else 0,
    ProjectID := env.ProjectID.valueInt64,
    Name := env.Name.valueString,
    JSON := match env.Variables with
            | none => "\x7b\x7d"
            | some m => marshalStrMap m,
    Env := match env.Environment with
           | none => "\x7b\x7d"
           | some m => marshalStrMap m,
    Secrets := envSecrets.map (diffSecret prev) ++ prevSecrets.filterMap (deleteStep env) }

/-- Whitespace skipping of the JSON scanner (space, tab, newline, carriage return). -/
def skipWs : List Char → List Char
  | c :: cs => if c = ' ' || c = '\t' || c = '\n' || c = '\r' then skipWs cs else c :: cs
  | [] => []

def hexVal (c : Char) : Option Nat :=
  if '0' ≤ c ∧ c ≤ '9' then some (c.toNat - '0'.toNat)
  else if 'a' ≤ c ∧ c ≤ 'f' then some (c.toNat - 'a'.toNat + 10)
  else if 'A' ≤ c ∧ c ≤ 'F' then some (c.toNat - 'A'.toNat + 10)
  else none

/-- JSON string body scanner (after the opening quote), with the standard
escape sequences; raw control characters are rejected as in Go.
`fuel` only bounds recursion and is ample at call sites. -/
def pStringBody (fuel : Nat) (cs : List Char) : Option (String × List Char) :=
  match fuel with
  | 0 => none
  | fuel + 1 =>
    match cs with
    | [] => none
    | c :: rest =>
      if c = '"' then some ("", rest)
      else if c = '\\' then
        match rest with
        | [] => none
        | e :: rest2 =>
          let dec : Option (Char × List Char) :=
            if e = '"' then some ('"', rest2)
            else if e = '\\' then some ('\\', rest2)
            else if e = '/' then some ('/', rest2)
            else if e = 'b' then some ('\x08', rest2)
            else if e = 'f' then some ('\x0c', rest2)
            else if e = 'n' then some ('\n', rest2)
            else if e = 'r' then some ('\r', rest2)
            else if e = 't' then some ('\t', rest2)
            else if e = 'u' then
              match rest2 with
              | h1 :: h2 :: h3 :: h4 :: rest3 =>
                match hexVal h1, hexVal h2, hexVal h3, hexVal h4 with
                | some a, some b, some c', some d =>
                  some (Char.ofNat (((a * 16 + b) * 16 + c') * 16 + d), rest3)
                | _, _, _, _ => none
              | _ => none
            else none
          match dec with
          | none => none
          | some (d, rest') =>
            match pStringBody fuel rest' with
            | none => none
            | some (s, r) => some (d.toString ++ s, r)
      else if c.toNat < 32 then none
      else
        match pStringBody fuel rest with
        | none => none
        | some (s, r) => some (c.toString ++ s, r)

/-- A JSON value in string position of a `map[string]string` target: a JSON
string, or the literal `null` (which Go decodes into the zero string without
error); anything else is a type error. -/
def pValueString (fuel : Nat) (cs : List Char) : Option (String × List Char) :=
  match cs with
  | '"' :: rest => pStringBody fuel rest
  | 'n' :: 'u' :: 'l' :: 'l' :: rest => some ("", rest)
  | _ => none

/-- Go map assignment: inserting an existing key overwrites its value. -/
def insertKV (k v : String) : GoStrMap → GoStrMap
  | [] => [(k, v)]
  | (k', v') :: rest => if k' = k then (k, v) :: rest else (k', v') :: insertKV k v rest

/-- Member loop of the JSON object scanner: called after the opening brace
(or a comma), expects `"key" : value` then a comma or the closing brace. -/
def pMembers (fuel : Nat) (acc : GoStrMap) (cs : List Char) : Option (GoStrMap × List Char) :=
  match fuel with
  | 0 => none
  | fuel + 1 =>
    match skipWs cs with
    | '"' :: rest =>
      match pStringBody fuel rest with
      | none => none
      | some (k, rest1) =>
        match skipWs rest1 with
        | ':' :: rest2 =>
          match pValueString fuel (skipWs rest2) with
          | none => none
          | some (v, rest3) =>
            match skipWs rest3 with
            | ',' :: rest4 => pMembers fuel (insertKV k v acc) rest4
            | '\x7d' :: rest4 => some (insertKV k v acc, rest4)
            | _ => none
        | _ => none
    | _ => none

/-- Top-level JSON document for a `*map[string]string` target: the literal
`null` (pointer left nil, modelled `none`), or an object of string members. -/
def pTopStrMap (fuel : Nat) (cs : List Char) : Option (Option GoStrMap × List Char) :=
  match skipWs cs with
  | 'n' :: 'u' :: 'l' :: 'l' :: rest => some (none, rest)
  | '\x7b' :: rest =>
    match skipWs rest with
    | '\x7d' :: rest1 => some (some [], rest1)
    | _ =>
      match pMembers fuel [] rest with
      | none => none
      | some (m, rest1) => some (some m, rest1)
  | _ => none

/-- Model of `json.Unmarshal(data, p)` for `p : **map[string]string` starting
from a nil pointer: `.ok none` models success on the JSON document `null`
(the pointer is left nil); `.ok (some m)` models success on an object;
`.error ()` models a decode error (in which case the caller overwrites the
pointer, so the partly filled state is irrelevant). Trailing non-space
content after the document is an error, as in Go. -/
def unmarshalStrMap (s : String) : Except Unit (Option GoStrMap) :=
  match pTopStrMap (s.length * 2 + 8) s.data with
  | none => .error ()
  | some (v, rest) => if skipWs rest = [] then .ok v else .error ()

/-- The map-merging step of `convertEnvironmentResponseToProjectEnvironmentModel`
(source lines 193-205), run once for `Variables` and once for `Environment`:
a decode error is replaced by a fresh empty map; then, if the map is empty
and the previous field was nil, the field is set to nil. The outer `none`
models the Go nil-pointer dereference in `len(*model.Variables)` that occurs
when the decode succeeded but left the pointer nil (JSON document `null`). -/
def mergeMapStep (wire : String) (prevField : Option GoStrMap) : Option (Option GoStrMap) :=
  let decoded : Option GoStrMap :=
    match unmarshalStrMap wire with
    | .error _ => some []
    | .ok v => v
  match decoded with
  | none => none
  | some m => if m.length = 0 ∧ prevField = none then some none else some (some m)

/-- Model of `sort.Sort(ByEnvironmentID(environment.Secrets))`: the secrets
sorted by the `Less` key `a.ID < b.ID`. The unstable Go sort and this insertion
sort agree on the resulting ID order, which is all the merger depends on. -/
def sortByID (l : List EnvironmentSecret) : List EnvironmentSecret :=
  List.insertionSort (fun a b => a.ID ≤ b.ID) l

/-- One iteration of the secrets loop of
`convertEnvironmentResponseToProjectEnvironmentModel` (source lines 210-224):
the local secret model built for one server secret, taking the value from the
previous state by identity first, else by name and type, since secret values
are not returned in the response. -/
def mergeOneSecret (prev : ProjectEnvironmentModel)
    (secret : EnvironmentSecret) : ProjectEnvironmentSecretModel :=
  { ID := .value secret.ID,
    Type' := .value secret.Type',
    Name := .value secret.Name,
    Value :=
      match prev.Secret (TfInt.value secret.ID) with
      | some prevSecret => prevSecret.Value
      | none => prev.SecretValue secret.Name secret.Type' }

/-- Model of `convertEnvironmentResponseToProjectEnvironmentModel`: the
response merger. The result is `none` when the Go function panics (nil map
dereference in one of the two map-merging steps); otherwise `some` of the
merged model. If the merged secret list is empty and the previous secrets
list is neither null nor unknown, the previous secret elements are reused. -/
def convertEnvironmentResponseToProjectEnvironmentModel
    (environment : Environment) (prev : ProjectEnvironmentModel) :
    Option ProjectEnvironmentModel :=
  match mergeMapStep environment.JSON prev.Variables,
        mergeMapStep environment.Env prev.Environment with
  | some vars, some envMap =>
    let secrets := (sortByID environment.Secrets).map (mergeOneSecret prev)
    let secrets :=
      if secrets.length = 0 ∧ ¬ prev.Secrets = TfSecrets.null
          ∧ ¬ prev.Secrets = TfSecrets.unknown then
        match prev.Secrets with
        | .value l => l
        | _ => []
      else secrets
    some { ID := .value environment.ID,
           ProjectID := .value environment.ProjectID,
           Name := .value environment.Name,
           Variables := vars,
           Environment := envMap,
           Secrets := TfSecrets.value secrets }
  | _, _ => none

def exceptIsOk {ε α : Type} : Except ε α → Bool
  | .ok _ => true
  | .error _ => false

/-- Split on the slash separator (the spec: "Splits raw on /"); matches
Go strings.Split with a "/" separator. -/
def splitOnSlashAux : List Char → List Char → List String
  | [], acc => [String.mk acc.reverse]
  | c :: cs, acc =>
    if c = '/' then String.mk acc.reverse :: splitOnSlashAux cs []
    else splitOnSlashAux cs (c :: acc)

def splitOnSlash (s : String) : List String := splitOnSlashAux s.data []

def isDigitChar (c : Char) : Bool := '0' ≤ c && c ≤ '9'

def digitsToNat (acc : Nat) : List Char → Nat
  | [] => acc
  | c :: cs => digitsToNat (acc * 10 + (c.toNat - '0'.toNat)) cs

/-- A value token parsed as a non-negative decimal integer (the spec: "Each
value token must parse as a non-negative integer identity"). -/
def parseNonNegInt (s : String) : Option Int :=
  if s.data = [] then none
  else if s.data.all isDigitChar then some (digitsToNat 0 s.data)
  else none

/-- Segment parsing of the composite identifier parser: every segment must be
a non-negative decimal integer. -/
def parseSegs : List String → Option (List Int)
  | [] => some []
  | s :: rest =>
    match parseNonNegInt s, parseSegs rest with
    | some n, some ns => some (n :: ns)
    | _, _ => none

/-- The expected pattern named by a malformed-identifier error. -/
def importPattern (expectedLabels : List String) : String :=
  String.intercalate "/" expectedLabels

def importErrorMessage (raw : String) (expectedLabels : List String) : String :=
  "unexpected format of ID (" ++ raw ++ "), expected " ++ importPattern expectedLabels

/-- Modelled from the spec: `parseImportFields(raw, expectedLabels)`, the
composite identifier parser called by `ImportState` (source line 378), whose
defining file is not part of the provided sources. Per the spec it splits
`raw` on "/", requires the segment count to equal the expected label count
and every segment to parse as a non-negative integer, returns the mapping of
each label to its numeric segment, and otherwise fails with a malformed
identifier error naming the expected pattern. -/
def parseImportFields (raw : String) (expectedLabels : List String) :
    Except String (List (String × Int)) :=
  let segs := splitOnSlash raw
  if segs.length = expectedLabels.length then
    match parseSegs segs with
    | some ns => .ok (expectedLabels.zip ns)
    | none => .error (importErrorMessage raw expectedLabels)
  else .error (importErrorMessage raw expectedLabels)

instance : IsTotal EnvironmentSecret (fun a b => a.ID ≤ b.ID) :=
  ⟨fun a b => Int.le_total a.ID b.ID⟩

instance : IsTrans EnvironmentSecret (fun a b => a.ID ≤ b.ID) :=
  ⟨fun _ _ _ h1 h2 => le_trans h1 h2⟩

def c1prevIn : ProjectEnvironmentModel :=
  { ID := .value 10, ProjectID := .value 2, Name := .value "e", Variables := none,
    Environment := none,
    Secrets := .value [{ ID := .value 1, Type' := .value "env-var", Name := .value "A",
                         Value := .value "x" }] }

def c1desired : ProjectEnvironmentSecretModel :=
  { ID := .value 1, Type' := .value "env-var", Name := .value "A", Value := .value "y" }

def c1envIn : ProjectEnvironmentModel := { c1prevIn with Secrets := .value [c1desired] }

def c1previousSecret : ProjectEnvironmentSecretModel :=
  { ID := .value 1, Type' := .value "env-var", Name := .value "A", Value := .value "x" }

def c2secret : ProjectEnvironmentSecretModel :=
  { ID := .value 1, Type' := .value "env-var", Name := .value "A", Value := .value "x" }

def c2model : ProjectEnvironmentModel :=
  { ID := .value 10, ProjectID := .value 2, Name := .value "e", Variables := none,
    Environment := none, Secrets := .value [c2secret] }

def c3env : ProjectEnvironmentModel :=
  { ID := .value 10, ProjectID := .value 2, Name := .value "e", Variables := none,
    Environment := none,
    Secrets := .value [{ ID := .value 7, Type' := .value "env-var", Name := .value "A",
                         Value := .value "x" }] }

def c3fresh : ProjectEnvironmentSecretModel :=
  { ID := .unknown, Type' := .value "env-var", Name := .value "B", Value := .value "z" }

def c3claimed : ProjectEnvironmentSecretModel :=
  { ID := .value 7, Type' := .value "env-var", Name := .value "A", Value := .value "x" }

def c3envW : ProjectEnvironmentModel :=
  { ID := .value 10, ProjectID := .value 2, Name := .value "e", Variables := none,
    Environment := none, Secrets := .value [c3fresh, c3claimed] }

def c3prevW : ProjectEnvironmentModel :=
  { ID := .value 10, ProjectID := .value 2, Name := .value "e", Variables := none,
    Environment := none, Secrets := .value [] }

def c7prevSecret : ProjectEnvironmentSecretModel :=
  { ID := .value 9, Type' := .value "file", Name := .value "B", Value := .value "y" }

def c7prev : ProjectEnvironmentModel :=
  { ID := .value 10, ProjectID := .value 2, Name := .value "e", Variables := none,
    Environment := none, Secrets := .value [c7prevSecret] }

def c7env : ProjectEnvironmentModel :=
  { ID := .value 10, ProjectID := .value 2, Name := .value "e", Variables := none,
    Environment := none, Secrets := .value [] }

def c4prev : ProjectEnvironmentModel :=
  { ID := .value 3, ProjectID := .value 2, Name := .value "e", Variables := none,
    Environment := none,
    Secrets := .value [{ ID := .value 1, Type' := .value "env-var", Name := .value "A",
                         Value := .value "x" }] }

def c4response : Environment :=
  { ID := 3, ProjectID := 2, Name := "e", JSON := "\x7b\x7d", Env := "\x7b\x7d",
    Secrets := [{ ID := 1, Name := "A", Type' := "env-var" }] }

def c4prevNoId : ProjectEnvironmentModel :=
  { ID := .value 3, ProjectID := .value 2, Name := .value "e", Variables := none,
    Environment := none,
    Secrets := .value [{ ID := .null, Type' := .value "env-var", Name := .value "A",
                         Value := .value "x" }] }

def c4responseAfterCreate : Environment :=
  { ID := 3, ProjectID := 2, Name := "e", JSON := "\x7b\x7d", Env := "\x7b\x7d",
    Secrets := [{ ID := 5, Name := "A", Type' := "env-var" }] }

def c8response : Environment :=
  { ID := 3, ProjectID := 2, Name := "e", JSON := "\x7b\x7d", Env := "\x7b\x7d",
    Secrets := [] }

def c8prev : ProjectEnvironmentModel :=
  { ID := .value 3, ProjectID := .value 2, Name := .value "e", Variables := none,
    Environment := none,
    Secrets := .value [{ ID := .value 1, Type' := .value "env-var", Name := .value "A",
                         Value := .value "x" }] }

def c10response : Environment :=
  { ID := 3, ProjectID := 2, Name := "e", JSON := "\x7b\x7d", Env := "\x7b\x7d",
    Secrets := [{ ID := 5, Name := "B", Type' := "env-var" },
                { ID := 2, Name := "A", Type' := "env-var" }] }

theorem diffSecret_matched_changed (prev : ProjectEnvironmentModel)
    (e p : ProjectEnvironmentSecretModel) (n : Int)
    (hid : e.ID = TfInt.value n) (hp : prev.Secret e.ID = some p)
    (hchg : ¬ (e.Name = p.Name ∧ e.Value = p.Value ∧ e.Type' = p.Type')) :
    diffSecret prev e =
      { ID := n, Name := e.Name.valueString, Type' := e.Type'.valueString,
        Secret := if e.Value = p.Value then "" else e.Value.valueString,
        Operation := "update" } := by
  have hcond : ¬ e.Name = p.Name ∨ ¬ e.Value = p.Value ∨ ¬ e.Type' = p.Type' := by tauto
  rw [hid] at hp
  simp only [diffSecret, hid, hp, TfInt.isUnknown, TfInt.isNull, TfInt.valueInt64,
    Bool.or_self, Bool.false_or, if_pos hcond]
  by_cases hN : e.Name = p.Name <;> by_cases hV : e.Value = p.Value <;>
    by_cases hT : e.Type' = p.Type' <;> simp_all

theorem diffSecret_matched_unchanged (prev : ProjectEnvironmentModel)
    (e p : ProjectEnvironmentSecretModel) (n : Int)
    (hid : e.ID = TfInt.value n) (hp : prev.Secret e.ID = some p)
    (hN : e.Name = p.Name) (hV : e.Value = p.Value) (hT : e.Type' = p.Type') :
    diffSecret prev e =
      { ID := n, Name := e.Name.valueString, Type' := e.Type'.valueString,
        Secret := "", Operation := "" } := by
  rw [hid] at hp
  simp [diffSecret, hid, hp, TfInt.isUnknown, TfInt.isNull, TfInt.valueInt64, hN, hV, hT]

theorem diffSecret_unmatched (prev : ProjectEnvironmentModel)
    (e : ProjectEnvironmentSecretModel) (n : Int)
    (hid : e.ID = TfInt.value n) (hp : prev.Secret e.ID = none) :
    diffSecret prev e =
      { ID := n, Name := e.Name.valueString, Type' := e.Type'.valueString,
        Secret := "", Operation := "" } := by
  rw [hid] at hp
  simp [diffSecret, hid, hp, TfInt.isUnknown, TfInt.isNull, TfInt.valueInt64]

theorem diffSecret_create (prev : ProjectEnvironmentModel)
    (e : ProjectEnvironmentSecretModel)
    (hid : e.ID = TfInt.null ∨ e.ID = TfInt.unknown) :
    diffSecret prev e =
      { ID := 0, Name := e.Name.valueString, Type' := e.Type'.valueString,
        Secret := e.Value.valueString, Operation := "create" } := by
  rcases hid with h | h <;> simp [diffSecret, h, TfInt.isUnknown, TfInt.isNull]

theorem convert_request_secrets (env prev : ProjectEnvironmentModel)
    (dl pl : List ProjectEnvironmentSecretModel)
    (hd : env.Secrets = TfSecrets.value dl) (hp : prev.Secrets = TfSecrets.value pl) :
    (convertProjectEnvironmentModelToEnvironmentRequest env prev).Secrets
      = dl.map (diffSecret prev) ++ pl.filterMap (deleteStep env) := by
  simp [convertProjectEnvironmentModelToEnvironmentRequest, hd, hp]

theorem lookupSecret_eq_none (id : TfInt) (l : List ProjectEnvironmentSecretModel)
    (h : ∀ e ∈ l, ¬ e.ID = id) : lookupSecret id l = none := by
  induction l with
  | nil => rfl
  | cons s rest ih =>
    have hs : ¬ s.ID = id := h s (List.mem_cons_self s rest)
    simp only [lookupSecret, if_neg hs]
    exact ih (fun e he => h e (List.mem_cons_of_mem s he))

theorem deleteStep_of_absent (env : ProjectEnvironmentModel)
    (p : ProjectEnvironmentSecretModel) (n : Int)
    (hid : p.ID = TfInt.value n)
    (habs : env.Secret p.ID = none) :
    deleteStep env p =
      some { ID := n, Name := "", Type' := p.Type'.valueString,
             Secret := "", Operation := "delete" } := by
  rw [hid] at habs
  simp [deleteStep, habs, hid, TfInt.valueInt64]

theorem secret_eq_none_of_forall (env : ProjectEnvironmentModel)
    (dl : List ProjectEnvironmentSecretModel) (id : TfInt)
    (hd : env.Secrets = TfSecrets.value dl)
    (h : ∀ e ∈ dl, ¬ e.ID = id) : env.Secret id = none := by
  simp only [ProjectEnvironmentModel.Secret, hd]
  exact lookupSecret_eq_none id dl h

theorem sortByID_sorted (l : List EnvironmentSecret) :
    List.Pairwise (fun a b => a.ID ≤ b.ID) (sortByID l) :=
  List.sorted_insertionSort _ l

theorem sortByID_length (l : List EnvironmentSecret) :
    (sortByID l).length = l.length :=
  List.length_insertionSort _ l

theorem convert_response_of_merges (environment : Environment)
    (prev : ProjectEnvironmentModel) (v1 v2 : Option GoStrMap)
    (h1 : mergeMapStep environment.JSON prev.Variables = some v1)
    (h2 : mergeMapStep environment.Env prev.Environment = some v2) :
    convertEnvironmentResponseToProjectEnvironmentModel environment prev
      = some { ID := .value environment.ID,
               ProjectID := .value environment.ProjectID,
               Name := .value environment.Name,
               Variables := v1,
               Environment := v2,
               Secrets := TfSecrets.value
                 (if ((sortByID environment.Secrets).map (mergeOneSecret prev)).length = 0
                     ∧ ¬ prev.Secrets = TfSecrets.null ∧ ¬ prev.Secrets = TfSecrets.unknown then
                    match prev.Secrets with
                    | .value l => l
                    | _ => []
                  else (sortByID environment.Secrets).map (mergeOneSecret prev)) } := by
  simp [convertEnvironmentResponseToProjectEnvironmentModel, h1, h2]

-- concrete inputs

/-- C1: counterexample. Desired secret (id 1, name A, kind env-var, value y)
matched against previous (id 1, A, env-var, x): only the value changed, yet
the emitted update operation carries the unchanged name "A" and kind
"env-var" (both nonzero in the payload), contradicting the claim that fields
equal to the previous value are absent from the update payload. -/
theorem c1_counterexample :
    (convertProjectEnvironmentModelToEnvironmentRequest c1envIn c1prevIn).Secrets
      = [{ ID := 1, Name := "A", Type' := "env-var", Secret := "y", Operation := "update" }]
    ∧ ¬ ("A" : String) = "" := by
  exact ⟨rfl, by decide⟩

/-- C1 (amended): for every desired secret entry whose identity matches an
entry in previous and whose name, kind or value differs, the diff emits
exactly one update operation (one wire entry per desired entry, by the
map shape) carrying the identity, the name and the kind unconditionally
(even when unchanged, because the wire struct is built with them already set),
and the value exactly when it changed (an unchanged value is absent,
i.e. the zero string). -/
theorem c1_update_operation_payload (env prev : ProjectEnvironmentModel)
    (dl pl : List ProjectEnvironmentSecretModel)
    (e p : ProjectEnvironmentSecretModel) (n : Int)
    (hd : env.Secrets = TfSecrets.value dl) (hp : prev.Secrets = TfSecrets.value pl)
    (hid : e.ID = TfInt.value n) (hfound : prev.Secret e.ID = some p)
    (hchg : ¬ (e.Name = p.Name ∧ e.Value = p.Value ∧ e.Type' = p.Type')) :
    (convertProjectEnvironmentModelToEnvironmentRequest env prev).Secrets
        = dl.map (diffSecret prev) ++ pl.filterMap (deleteStep env)
    ∧ diffSecret prev e =
        { ID := n, Name := e.Name.valueString, Type' := e.Type'.valueString,
          Secret := if e.Value = p.Value then "" else e.Value.valueString,
          Operation := "update" } :=
  ⟨convert_request_secrets env prev dl pl hd hp,
   diffSecret_matched_changed prev e p n hid hfound hchg⟩

/-- C1: witness instantiating the amended theorem at the concrete
value-changed pair. -/
theorem c1_update_operation_payload_witness :
    (convertProjectEnvironmentModelToEnvironmentRequest c1envIn c1prevIn).Secrets
        = [c1desired].map (diffSecret c1prevIn)
          ++ [c1previousSecret].filterMap (deleteStep c1envIn)
    ∧ diffSecret c1prevIn c1desired =
        { ID := 1, Name := "A", Type' := "env-var", Secret := "y", Operation := "update" } :=
  c1_update_operation_payload c1envIn c1prevIn [c1desired] [c1previousSecret]
    c1desired c1previousSecret 1 rfl rfl rfl rfl (by decide)

/-- C2: counterexample. diff(D, D) with D a single matched, unchanged,
identity-carrying secret emits one wire entry (identity, name, kind, empty
operation), so the operation list is not empty as the claim states. -/
theorem c2_counterexample :
    (convertProjectEnvironmentModelToEnvironmentRequest c2model c2model).Secrets
      = [{ ID := 1, Name := "A", Type' := "env-var", Secret := "", Operation := "" }]
    ∧ ¬ (convertProjectEnvironmentModelToEnvironmentRequest c2model c2model).Secrets = [] := by
  exact ⟨rfl, by decide⟩

/-- C2 (amended): when every desired entry is matched by identity against
previous with equal name, kind and value, and every previous entry is still
referenced by the desired list, the diff emits no create, update or delete
operation: it still emits exactly one wire entry per desired entry, but
every emitted entry has an empty operation field. -/
theorem c2_noop_diff (env prev : ProjectEnvironmentModel)
    (dl pl : List ProjectEnvironmentSecretModel)
    (hd : env.Secrets = TfSecrets.value dl) (hp : prev.Secrets = TfSecrets.value pl)
    (hmatched : ∀ e ∈ dl, ∃ n p, e.ID = TfInt.value n ∧ prev.Secret e.ID = some p
        ∧ e.Name = p.Name ∧ e.Value = p.Value ∧ e.Type' = p.Type')
    (hkept : ∀ p ∈ pl, ¬ env.Secret p.ID = none) :
    (convertProjectEnvironmentModelToEnvironmentRequest env prev).Secrets.length = dl.length
    ∧ (convertProjectEnvironmentModelToEnvironmentRequest env prev).Secrets.all
        (fun op => op.Operation == "") = true := by
  have hshape := convert_request_secrets env prev dl pl hd hp
  have hdel : pl.filterMap (deleteStep env) = [] := by
    rw [List.filterMap_eq_nil_iff]
    intro p hpmem
    rcases Option.ne_none_iff_exists'.mp (hkept p hpmem) with ⟨q, hq⟩
    simp [deleteStep, hq]
  rw [hshape, hdel, List.append_nil]
  constructor
  · exact List.length_map dl _
  · rw [List.all_eq_true]
    intro op hop
    rcases List.mem_map.mp hop with ⟨e, hemem, rfl⟩
    rcases hmatched e hemem with ⟨n, p, hid, hfound, hN, hV, hT⟩
    rw [diffSecret_matched_unchanged prev e p n hid hfound hN hV hT]
    rfl

/-- C2: witness instantiating the amended theorem at a one-element no-op
diff. -/
theorem c2_noop_diff_witness :
    (convertProjectEnvironmentModelToEnvironmentRequest c2model c2model).Secrets.length
        = [c2secret].length
    ∧ (convertProjectEnvironmentModelToEnvironmentRequest c2model c2model).Secrets.all
        (fun op => op.Operation == "") = true :=
  c2_noop_diff c2model c2model [c2secret] [c2secret] rfl rfl
    (by
      intro e he
      rcases List.mem_singleton.mp he with rfl
      exact ⟨1, c2secret, rfl, rfl, rfl, rfl, rfl⟩)
    (by
      intro p hp
      rcases List.mem_singleton.mp hp with rfl
      decide)

/-- C3: counterexample. A desired secret claiming identity 7 that is not
found in the previous index does not become a create: the emitted wire entry
has an empty operation ("" and not "create") and does not carry the value. -/
theorem c3_counterexample :
    (convertProjectEnvironmentModelToEnvironmentRequest c3env emptyProjectEnvironmentModel).Secrets
      = [{ ID := 7, Name := "A", Type' := "env-var", Secret := "", Operation := "" }]
    ∧ ¬ ("" : String) = "create" := by
  exact ⟨rfl, by decide⟩

/-- C3 (amended): a desired entry lacking an identity (null or unknown)
yields exactly one create operation carrying name, kind and value; but a
desired entry whose identity is not found in the previous index yields a
wire entry carrying identity, name and kind with an empty operation and no
value — it is not defensively treated as a create. -/
theorem c3_create_classification (env prev : ProjectEnvironmentModel)
    (dl pl : List ProjectEnvironmentSecretModel)
    (e1 e2 : ProjectEnvironmentSecretModel) (n : Int)
    (hd : env.Secrets = TfSecrets.value dl) (hp : prev.Secrets = TfSecrets.value pl)
    (h1 : e1.ID = TfInt.null ∨ e1.ID = TfInt.unknown)
    (h2 : e2.ID = TfInt.value n) (h2n : prev.Secret e2.ID = none) :
    (convertProjectEnvironmentModelToEnvironmentRequest env prev).Secrets
        = dl.map (diffSecret prev) ++ pl.filterMap (deleteStep env)
    ∧ diffSecret prev e1 =
        { ID := 0, Name := e1.Name.valueString, Type' := e1.Type'.valueString,
          Secret := e1.Value.valueString, Operation := "create" }
    ∧ diffSecret prev e2 =
        { ID := n, Name := e2.Name.valueString, Type' := e2.Type'.valueString,
          Secret := "", Operation := "" } :=
  ⟨convert_request_secrets env prev dl pl hd hp,
   diffSecret_create prev e1 h1,
   diffSecret_unmatched prev e2 n h2 h2n⟩

/-- C3: witness instantiating the amended theorem at one fresh entry and
one entry with an identity unknown to the (empty) previous list. -/
theorem c3_create_classification_witness :
    (convertProjectEnvironmentModelToEnvironmentRequest c3envW c3prevW).Secrets
        = [c3fresh, c3claimed].map (diffSecret c3prevW)
          ++ [].filterMap (deleteStep c3envW)
    ∧ diffSecret c3prevW c3fresh =
        { ID := 0, Name := "B", Type' := "env-var", Secret := "z", Operation := "create" }
    ∧ diffSecret c3prevW c3claimed =
        { ID := 7, Name := "A", Type' := "env-var", Secret := "", Operation := "" } :=
  c3_create_classification c3envW c3prevW [c3fresh, c3claimed] []
    c3fresh c3claimed 7 rfl rfl (Or.inr rfl) rfl rfl

/-- C7 (confirmed): every previous secret entry whose identity does not
appear among the desired entries yields exactly one delete operation
carrying exactly the identity, the kind and the delete action, with the
name and the value left at the zero string. -/
theorem c7_delete_payload (env prev : ProjectEnvironmentModel)
    (dl pl : List ProjectEnvironmentSecretModel)
    (p : ProjectEnvironmentSecretModel) (n : Int)
    (hd : env.Secrets = TfSecrets.value dl) (hp : prev.Secrets = TfSecrets.value pl)
    (_hmem : p ∈ pl) (hid : p.ID = TfInt.value n)
    (habs : ∀ e ∈ dl, ¬ e.ID = TfInt.value n) :
    (convertProjectEnvironmentModelToEnvironmentRequest env prev).Secrets
        = dl.map (diffSecret prev) ++ pl.filterMap (deleteStep env)
    ∧ deleteStep env p =
        some { ID := n, Name := "", Type' := p.Type'.valueString,
               Secret := "", Operation := "delete" } := by
  have hnone : env.Secret p.ID = none := by
    rw [hid]
    exact secret_eq_none_of_forall env dl _ hd habs
  exact ⟨convert_request_secrets env prev dl pl hd hp,
         deleteStep_of_absent env p n hid hnone⟩

/-- C7: witness instantiating the delete theorem at the concrete previous
secret (id 9, name B, kind file, value y) absent from desired. -/
theorem c7_delete_payload_witness :
    (convertProjectEnvironmentModelToEnvironmentRequest c7env c7prev).Secrets
        = [].map (diffSecret c7prev) ++ [c7prevSecret].filterMap (deleteStep c7env)
    ∧ deleteStep c7env c7prevSecret =
        some { ID := 9, Name := "", Type' := "file", Secret := "", Operation := "delete" } :=
  c7_delete_payload c7env c7prev [] [c7prevSecret] c7prevSecret 9 rfl rfl
    (List.mem_singleton.mpr rfl) rfl (by intro e he; cases he)

/-- C4 (confirmed): the merger resolves each server secret value by first
looking up previous secrets by identity, otherwise by name and kind,
otherwise the empty string; and both concrete round trips of the claim hold
(identity lookup with previous id 1, and the name-and-kind fallback where
the previous copy has no identity and the server reports id 5). -/
theorem c4_value_resolution (prev : ProjectEnvironmentModel)
    (pl : List ProjectEnvironmentSecretModel) (s : EnvironmentSecret)
    (hp : prev.Secrets = TfSecrets.value pl) :
    mergeOneSecret prev s =
      { ID := .value s.ID, Type' := .value s.Type', Name := .value s.Name,
        Value := match lookupSecret (TfInt.value s.ID) pl with
                 | some q => q.Value
                 | none => lookupSecretValue s.Name s.Type' pl }
    ∧ lookupSecretValue s.Name s.Type' [] = TfString.value ""
    ∧ convertEnvironmentResponseToProjectEnvironmentModel c4response c4prev
        = some { ID := .value 3, ProjectID := .value 2, Name := .value "e",
                 Variables := none, Environment := none,
                 Secrets := .value [{ ID := .value 1, Type' := .value "env-var",
                                      Name := .value "A", Value := .value "x" }] }
    ∧ convertEnvironmentResponseToProjectEnvironmentModel c4responseAfterCreate c4prevNoId
        = some { ID := .value 3, ProjectID := .value 2, Name := .value "e",
                 Variables := none, Environment := none,
                 Secrets := .value [{ ID := .value 5, Type' := .value "env-var",
                                      Name := .value "A", Value := .value "x" }] } := by
  refine ⟨?_, rfl, rfl, rfl⟩
  simp [mergeOneSecret, ProjectEnvironmentModel.Secret, ProjectEnvironmentModel.SecretValue, hp]

/-- C4: witness instantiating the resolution theorem at the concrete
identity round trip. -/
theorem c4_value_resolution_witness :
    mergeOneSecret c4prev { ID := 1, Name := "A", Type' := "env-var" } =
      { ID := .value 1, Type' := .value "env-var", Name := .value "A",
        Value := match lookupSecret (TfInt.value 1)
            [{ ID := .value 1, Type' := .value "env-var", Name := .value "A",
               Value := .value "x" }] with
                 | some q => q.Value
                 | none => lookupSecretValue "A" "env-var"
                     [{ ID := .value 1, Type' := .value "env-var", Name := .value "A",
                        Value := .value "x" }] }
    ∧ lookupSecretValue "A" "env-var" [] = TfString.value ""
    ∧ convertEnvironmentResponseToProjectEnvironmentModel c4response c4prev
        = some { ID := .value 3, ProjectID := .value 2, Name := .value "e",
                 Variables := none, Environment := none,
                 Secrets := .value [{ ID := .value 1, Type' := .value "env-var",
                                      Name := .value "A", Value := .value "x" }] }
    ∧ convertEnvironmentResponseToProjectEnvironmentModel c4responseAfterCreate c4prevNoId
        = some { ID := .value 3, ProjectID := .value 2, Name := .value "e",
                 Variables := none, Environment := none,
                 Secrets := .value [{ ID := .value 5, Type' := .value "env-var",
                                      Name := .value "A", Value := .value "x" }] } :=
  c4_value_resolution c4prev
    [{ ID := .value 1, Type' := .value "env-var", Name := .value "A", Value := .value "x" }]
    { ID := 1, Name := "A", Type' := "env-var" } rfl

/-- C5 (confirmed): a JSON parse failure is treated as an empty map and is
never surfaced as an error or failure; a decoded empty map with a never-set
(nil) previous field merges to nil rather than an empty map; and a decoded
empty map with a previous field explicitly set to the empty map stays an
empty map rather than becoming nil. -/
theorem c5_map_normalization (wireBad wireEmpty : String) (prevF : Option GoStrMap)
    (hbad : unmarshalStrMap wireBad = .error ())
    (hempty : unmarshalStrMap wireEmpty = .ok (some [])) :
    mergeMapStep wireBad prevF = (if prevF = none then some none else some (some []))
    ∧ mergeMapStep wireEmpty none = some none
    ∧ mergeMapStep wireEmpty (some []) = some (some []) := by
  refine ⟨?_, ?_, ?_⟩
  · by_cases h : prevF = none <;> simp [mergeMapStep, hbad, h]
  · simp [mergeMapStep, hempty]
  · simp [mergeMapStep, hempty]

/-- C5: witness instantiating the normalization theorem at a malformed
document and the empty-object document. -/
theorem c5_map_normalization_witness :
    mergeMapStep "nope" none = (if (none : Option GoStrMap) = none then some none else some (some []))
    ∧ mergeMapStep "\x7b\x7d" none = some none
    ∧ mergeMapStep "\x7b\x7d" (some []) = some (some []) :=
  c5_map_normalization "nope" "\x7b\x7d" none rfl rfl

/-- C6 (refuted by the code): the response merger is not total on
syntactically valid JSON documents. The document "null" decodes successfully
while leaving the map pointer nil, and the subsequent emptiness check
dereferences that nil map, which is a run-time failure in Go (modelled here
as the merger returning none). -/
theorem c6_merge_panics_on_null_document :
    unmarshalStrMap "null" = .ok none
    ∧ convertEnvironmentResponseToProjectEnvironmentModel
        { ID := 3, ProjectID := 2, Name := "e", JSON := "null", Env := "\x7b\x7d",
          Secrets := [] }
        emptyProjectEnvironmentModel = none :=
  ⟨rfl, rfl⟩

/-- C8 (confirmed): when the server response carries no secrets (so the
merged list is empty) and the previous secrets list is a known non-empty
list, the merger reuses the previous secret elements verbatim. -/
theorem c8_empty_read_reuses_previous (environment : Environment)
    (prev : ProjectEnvironmentModel) (pl : List ProjectEnvironmentSecretModel)
    (v1 v2 : Option GoStrMap)
    (hs : environment.Secrets = [])
    (hp : prev.Secrets = TfSecrets.value pl) (_hne : ¬ pl = [])
    (h1 : mergeMapStep environment.JSON prev.Variables = some v1)
    (h2 : mergeMapStep environment.Env prev.Environment = some v2) :
    convertEnvironmentResponseToProjectEnvironmentModel environment prev
      = some { ID := .value environment.ID, ProjectID := .value environment.ProjectID,
               Name := .value environment.Name, Variables := v1, Environment := v2,
               Secrets := TfSecrets.value pl } := by
  rw [convert_response_of_merges environment prev v1 v2 h1 h2]
  simp [hs, hp, sortByID]

/-- C8: witness instantiating the reuse theorem at a concrete transient
empty read. -/
theorem c8_empty_read_reuses_previous_witness :
    convertEnvironmentResponseToProjectEnvironmentModel c8response c8prev
      = some { ID := .value 3, ProjectID := .value 2, Name := .value "e",
               Variables := none, Environment := none,
               Secrets := TfSecrets.value
                 [{ ID := .value 1, Type' := .value "env-var", Name := .value "A",
                    Value := .value "x" }] } :=
  c8_empty_read_reuses_previous c8response c8prev
    [{ ID := .value 1, Type' := .value "env-var", Name := .value "A", Value := .value "x" }]
    none none rfl rfl (by decide) rfl rfl

/-- C10 (confirmed): for every order of the secrets in a non-empty server
response, the merged secret list is non-empty and ordered by ascending
identity (the merger sorts the response secrets by identity before building
the list, and the empty-list fallback is not taken). -/
theorem c10_merged_secrets_sorted (environment : Environment)
    (prev : ProjectEnvironmentModel) (m : ProjectEnvironmentModel)
    (l : List ProjectEnvironmentSecretModel)
    (hne : ¬ environment.Secrets = [])
    (hm : convertEnvironmentResponseToProjectEnvironmentModel environment prev = some m)
    (hl : m.Secrets = TfSecrets.value l) :
    ¬ l = [] ∧ List.Pairwise (fun a b => a.ID.valueInt64 ≤ b.ID.valueInt64) l := by
  rcases h1 : mergeMapStep environment.JSON prev.Variables with _ | v1
  · simp [convertEnvironmentResponseToProjectEnvironmentModel, h1] at hm
  rcases h2 : mergeMapStep environment.Env prev.Environment with _ | v2
  · simp [convertEnvironmentResponseToProjectEnvironmentModel, h1, h2] at hm
  rw [convert_response_of_merges environment prev v1 v2 h1 h2] at hm
  have hlen : ((sortByID environment.Secrets).map (mergeOneSecret prev)).length ≠ 0 := by
    rw [List.length_map, sortByID_length]
    simpa [List.length_eq_zero] using hne
  have hif : ¬ (((sortByID environment.Secrets).map (mergeOneSecret prev)).length = 0
      ∧ ¬ prev.Secrets = TfSecrets.null ∧ ¬ prev.Secrets = TfSecrets.unknown) := by
    tauto
  rw [if_neg hif] at hm
  have hsec : m.Secrets
      = TfSecrets.value ((sortByID environment.Secrets).map (mergeOneSecret prev)) := by
    rw [← Option.some_inj.mp hm]
  have hleq : l = (sortByID environment.Secrets).map (mergeOneSecret prev) := by
    have hvv := hl.symm.trans hsec
    injection hvv
  constructor
  · rw [hleq]
    intro hcon
    exact hlen (by rw [hcon]; rfl)
  · rw [hleq]
    exact List.pairwise_map.mpr (sortByID_sorted environment.Secrets)

/-- C10: witness instantiating the sortedness theorem at a response listing
ids 5 and 2 out of order. -/
theorem c10_merged_secrets_sorted_witness :
    ¬ ([{ ID := .value 2, Type' := .value "env-var", Name := .value "A", Value := .value "" },
        { ID := .value 5, Type' := .value "env-var", Name := .value "B", Value := .value "" }]
        : List ProjectEnvironmentSecretModel) = []
    ∧ List.Pairwise (fun a b => a.ID.valueInt64 ≤ b.ID.valueInt64)
        ([{ ID := .value 2, Type' := .value "env-var", Name := .value "A", Value := .value "" },
          { ID := .value 5, Type' := .value "env-var", Name := .value "B", Value := .value "" }]
          : List ProjectEnvironmentSecretModel) :=
  c10_merged_secrets_sorted c10response emptyProjectEnvironmentModel
    { ID := .value 3, ProjectID := .value 2, Name := .value "e",
      Variables := none, Environment := none,
      Secrets := .value
        [{ ID := .value 2, Type' := .value "env-var", Name := .value "A", Value := .value "" },
         { ID := .value 5, Type' := .value "env-var", Name := .value "B", Value := .value "" }] }
    _ (by decide) rfl rfl

theorem parseSegs_isSome (segs : List String) :
    (parseSegs segs).isSome = segs.all (fun s => (parseNonNegInt s).isSome) := by
  induction segs with
  | nil => rfl
  | cons s rest ih =>
    simp only [parseSegs, List.all_cons]
    rcases hn : parseNonNegInt s with _ | n
    · simp [hn]
    · rcases hr : parseSegs rest with _ | ns
      · rw [hr] at ih
        simp [hn, ← ih]
      · rw [hr] at ih
        simp [hn, ← ih]

/-- C9 (confirmed, modelled from the spec): the composite identifier parser
succeeds with the mapping of each label to its numeric segment exactly when
the raw string splits on "/" into a segment count matching the label list
with every segment a non-negative integer, and otherwise fails with an
error naming the expected pattern; concretely parse of "12/34" against
project/environment yields 12 and 34, while "abc/34" and "12" both fail. -/
theorem c9_import_identifier_parse :
    (∀ raw labels, exceptIsOk (parseImportFields raw labels) = true
        ↔ ((splitOnSlash raw).length = labels.length
           ∧ ((splitOnSlash raw).all (fun s => (parseNonNegInt s).isSome)) = true))
    ∧ (∀ raw labels,
        parseImportFields raw labels
            = .ok (labels.zip ((parseSegs (splitOnSlash raw)).getD []))
        ∨ parseImportFields raw labels = .error (importErrorMessage raw labels))
    ∧ parseImportFields "12/34" ["project", "environment"]
        = .ok [("project", 12), ("environment", 34)]
    ∧ exceptIsOk (parseImportFields "abc/34" ["project", "environment"]) = false
    ∧ exceptIsOk (parseImportFields "12" ["project", "environment"]) = false := by
  refine ⟨?_, ?_, rfl, rfl, rfl⟩
  · intro raw labels
    simp only [parseImportFields]
    by_cases hlen : (splitOnSlash raw).length = labels.length
    · rcases hseg : parseSegs (splitOnSlash raw) with _ | ns
      · have := parseSegs_isSome (splitOnSlash raw)
        rw [hseg] at this
        simp [hlen, hseg, exceptIsOk, ← this]
      · have := parseSegs_isSome (splitOnSlash raw)
        rw [hseg] at this
        simp [hlen, hseg, exceptIsOk, ← this]
    · simp [hlen, exceptIsOk]
  · intro raw labels
    simp only [parseImportFields]
    by_cases hlen : (splitOnSlash raw).length = labels.length
    · rcases hseg : parseSegs (splitOnSlash raw) with _ | ns
      · simp [hlen, hseg]
      · simp [hlen, hseg]
    · simp [hlen]
